import Mathlib

/-!
Verification of the json-api document store.

The repository ships two backend variants whose logic the claims cite:

* a file-backed store (`JSONStore` over a data directory, one file per
  document, protected by a single store-wide `sync.RWMutex`), embedded in
  namespace `FileStore`;
* a MongoDB-backed store with per-user accounts (register/login, per-user
  document scoping via the `user_id` field and the distinguished `"global"`
  administrative scope), embedded in namespace `MongoAuth`.

Handlers are embedded after request-body parsing: a Go struct decoded from
JSON is represented directly (an absent `name` decodes to `""`, an absent or
null `data` map decodes to `nil`, modelled as `Option`).  External effects
with no influence on the verified logic (UUID generation, bcrypt, wall-clock
time) are passed in as explicit parameters.
-/

namespace JsonApi

/-- Error half of the standard `APIResponse` envelope: the HTTP status code
sent with `sendJSON` together with the `error` string. -/
structure ErrResp where
  status : Nat
  msg : String
deriving DecidableEq

/-- Arbitrary JSON values, the elements stored inside a document's `data`
object (`map[string]interface{}` in the Mongo variants). -/
inductive JVal where
  | jnull
  | jbool (b : Bool)
  | jnum (n : Int)
  | jstr (s : String)
  | jarr (elems : List JVal)
  | jobj (fields : List (String × JVal))

/-- A JSON object, the value of the `data` field (`map[string]interface{}`). -/
abbrev JMap := List (String × JVal)

/-- Model of Go `strings.ToLower` as used on emails. -/
def lowerStr (s : String) : String := String.mk (s.data.map Char.toLower)

namespace MongoAuth

/-- Embedding of `JSONDocument` from the account-scoped backend: `_id`,
`user_id`, `name`, `data` (a JSON object, `none` when the Go map is nil /
BSON null), and the two timestamps. -/
structure MDoc where
  id : String
  userID : String
  name : String
  data : Option JMap
  createdAt : Nat
  updatedAt : Nat

/-- Embedding of the Mongo filter built by `getDocument`, `updateDocument`
and `deleteDocument`: `_id` must equal the requested id, and `user_id` must
equal the scope unless the request resolved to the `"global"` administrative
scope. -/
def docMatches (scope id : String) (d : MDoc) : Bool :=
  d.id == id && (scope == "global" || d.userID == scope)

/-- Embedding of `getDocument`: `FindOne` with the scoped filter; a decode
error (no matching document) is answered with 404 "Document not found". -/
def getDocument (scope id : String) (docs : List MDoc) : Except ErrResp MDoc :=
  match docs.find? (docMatches scope id) with
  | none => .error ⟨404, "Document not found"⟩
  | some d => .ok d

/-- Removal of the first element satisfying a predicate, the effect of
`DeleteOne` on the documents collection. -/
def eraseFirst (p : MDoc → Bool) : List MDoc → List MDoc
  | [] => []
  | d :: rest => if p d then rest else d :: eraseFirst p rest

/-- Replacement of the first element satisfying a predicate, the effect of
`UpdateOne` with a `$set` update on the documents collection. -/
def replaceFirst (p : MDoc → Bool) (f : MDoc → MDoc) : List MDoc → List MDoc
  | [] => []
  | d :: rest => if p d then f d :: rest else d :: replaceFirst p f rest

/-- Embedding of `deleteDocument`: `DeleteOne` with the scoped filter; a
deleted count of zero is answered with 404 "Document not found". -/
def deleteDocument (scope id : String) (docs : List MDoc) :
    Except ErrResp Unit × List MDoc :=
  match docs.find? (docMatches scope id) with
  | none => (.error ⟨404, "Document not found"⟩, docs)
  | some _ => (.ok (), eraseFirst (docMatches scope id) docs)

/-- Decoded `PUT /api/documents/:id` body: `name` decodes to `""` when the
field is absent, `data` decodes to `nil` (here `none`) when absent or null. -/
structure UpdInput where
  name : String
  data : Option JMap

/-- Effect of `updateDocument`'s conditional `$set` on a stored document:
`name` is set only when the input name is non-empty, `data` only when the
input map is non-nil, and `updated_at` is always set. -/
def applySet (d : MDoc) (inp : UpdInput) (now : Nat) : MDoc :=
  { d with
    name := if inp.name = "" then d.name else inp.name
    data := match inp.data with
      | none => d.data
      | some m => some m
    updatedAt := now }

/-- Embedding of `updateDocument`: `FindOne` with the scoped filter (404 on
miss), then `UpdateOne` with the conditional `$set`.  The handler calls
`time.Now()` once for the `$set` (`now1`) and once more for the response's
`UpdatedAt` (`now2`). -/
def updateDocument (scope id : String) (inp : UpdInput) (now1 now2 : Nat)
    (docs : List MDoc) : Except ErrResp MDoc × List MDoc :=
  match docs.find? (docMatches scope id) with
  | none => (.error ⟨404, "Document not found"⟩, docs)
  | some d =>
      (.ok (applySet d inp now2),
       replaceFirst (docMatches scope id) (fun old => applySet old inp now1) docs)

/-- Decoded `POST /api/documents` body: `name` decodes to `""` when absent,
`data` decodes to `nil` (here `none`) when absent or null. -/
structure CreateInput where
  name : String
  data : Option JMap

/-- Embedding of `createDocument`: an empty name is rejected with 400, a nil
data map is replaced by an empty object, the document is stamped with a fresh
UUID (`newId`, passed in) and the current time for both timestamps, and
`InsertOne` persists it.  `InsertOne` fails (500, nothing stored) exactly when
the generated `_id` collides with a live document, mirroring the collection's
unique `_id` index. -/
def createDocument (scope : String) (inp : CreateInput) (newId : String)
    (now : Nat) (docs : List MDoc) : Except ErrResp MDoc × List MDoc :=
  if inp.name = "" then (.error ⟨400, "Document name is required"⟩, docs)
  else
    let stored : Option JMap := match inp.data with
      | none => some []
      | some m => some m
    let doc : MDoc := ⟨newId, scope, inp.name, stored, now, now⟩
    if docs.any (fun d => d.id == newId) then
      (.error ⟨500, "Failed to save document"⟩, docs)
    else
      (.ok doc, docs ++ [doc])

/-- Embedding of `listDocuments`: `Find` with the scope filter (empty filter
for the `"global"` scope, `user_id = scope` otherwise); a nil result slice is
replaced by an empty one before responding. -/
def listDocuments (scope : String) (docs : List MDoc) : List MDoc :=
  let found := docs.filter (fun d => scope == "global" || d.userID == scope)
  if found.isEmpty then [] else found

/-- Embedding of `publicHandler` after routing: an empty id answers 400, then
`FindOne` by `_id` alone (no scope in the filter); on a hit only the `data`
field is written back, on a miss 404. -/
def publicRead (id : String) (docs : List MDoc) : Except ErrResp (Option JMap) :=
  if id = "" then .error ⟨400, "Document ID is required"⟩
  else
    match docs.find? (fun d => d.id == id) with
    | none => .error ⟨404, "Document not found"⟩
    | some d => .ok d.data

/-- Embedding of the `User` account record: `_id`, normalized email, bcrypt
password hash, issued `api_key`, creation time. -/
structure User where
  id : String
  email : String
  password : String
  apiKey : String
  createdAt : Nat
deriving DecidableEq

/-- Body of the success responses of `registerHandler`, `loginHandler` and
`meHandler`: only `id`, `email` and `api_key` are ever sent back. -/
structure AccountOut where
  id : String
  email : String
  apiKey : String
deriving DecidableEq

/-- Embedding of `registerHandler` after body parsing: empty email or
password answer 400, a password shorter than 6 bytes answers 400, an existing
account under the case-folded email answers 409 leaving the registry
unchanged, and otherwise a user with the case-folded email, the bcrypt hash
(`hash`, passed in), a fresh id and api key (passed in) is inserted.
`InsertOne` fails (500, nothing stored) exactly when the generated id or api
key collides, mirroring the unique indexes. -/
def register (accounts : List User) (email pw hash newId newKey : String)
    (now : Nat) : Except ErrResp AccountOut × List User :=
  if email = "" ∨ pw = "" then
    (.error ⟨400, "Email and password are required"⟩, accounts)
  else if pw.utf8ByteSize < 6 then
    (.error ⟨400, "Password must be at least 6 characters"⟩, accounts)
  else
    match accounts.find? (fun u => u.email == lowerStr email) with
    | some _ => (.error ⟨409, "Email already registered"⟩, accounts)
    | none =>
        if accounts.any (fun u => u.id == newId || u.apiKey == newKey) then
          (.error ⟨500, "Failed to create account"⟩, accounts)
        else
          let u : User := ⟨newId, lowerStr email, hash, newKey, now⟩
          (.ok ⟨newId, lowerStr email, newKey⟩, accounts ++ [u])

/-- Embedding of `loginHandler` after body parsing: empty email or password
answer 400, then the account is looked up by case-folded email and the bcrypt
comparison (`verify`, passed in as the comparison oracle) is run; a missing
account and a failed comparison produce the same 401 response, and success
returns id, email and the issued api key. -/
def login (accounts : List User) (email pw : String)
    (verify : String → String → Bool) : Except ErrResp AccountOut :=
  if email = "" ∨ pw = "" then
    .error ⟨400, "Email and password are required"⟩
  else
    match accounts.find? (fun u => u.email == lowerStr email) with
    | none => .error ⟨401, "Invalid email or password"⟩
    | some u =>
        if verify u.password pw then .ok ⟨u.id, u.email, u.apiKey⟩
        else .error ⟨401, "Invalid email or password"⟩

/-- One authorized document operation, as dispatched by `documentsHandler`
and `documentHandler`. -/
inductive Op where
  | create (scope : String) (inp : CreateInput) (newId : String) (now : Nat)
  | update (scope id : String) (inp : UpdInput) (now1 now2 : Nat)
  | del (scope id : String)

/-- Effect of one operation on the documents collection. -/
def stepOp (docs : List MDoc) : Op → List MDoc
  | .create scope inp newId now => (createDocument scope inp newId now docs).2
  | .update scope id inp n1 n2 => (updateDocument scope id inp n1 n2 docs).2
  | .del scope id => (deleteDocument scope id docs).2

/-- Effect of a sequence of operations on the documents collection. -/
def runOps (docs : List MDoc) : List Op → List MDoc
  | [] => docs
  | op :: rest => runOps (stepOp docs op) rest

/-- A live document with a non-empty name and a non-nil data map. -/
def GoodDoc (d : MDoc) : Prop := d.name ≠ "" ∧ d.data ≠ none

/-- Every document in the collection is a `GoodDoc`. -/
def Inv (docs : List MDoc) : Prop := ∀ d ∈ docs, GoodDoc d

end MongoAuth

namespace FileStore

/-- Embedding of the file-backed `JSONDocument`: id, name, raw JSON bytes
(`json.RawMessage`, kept as a string), and the two timestamps. -/
structure FDoc where
  id : String
  name : String
  data : String
  createdAt : Nat
  updatedAt : Nat
deriving DecidableEq

/-- Contents of one file of the data directory: either bytes that fail
`json.Unmarshal` (a corrupt record) or a well-formed stored document. -/
inductive FileEntry where
  | corrupt (raw : String)
  | good (d : FDoc)
deriving DecidableEq

/-- The data directory: whether the storage medium is reachable, and the
files it holds, keyed by file name. -/
structure DiskState where
  up : Bool
  files : List (String × FileEntry)
deriving DecidableEq

/-- Failure of a store primitive: the file does not exist, the medium is
unreachable, or the bytes do not unmarshal. -/
inductive StoreErr where
  | notExist
  | ioError
  | parseError
deriving DecidableEq

/-- File name used by the store for a document id. -/
def fname (id : String) : String := id ++ ".json"

/-- Lookup of a file by name. -/
def findEntry : List (String × FileEntry) → String → Option FileEntry
  | [], _ => none
  | (k, v) :: rest, key => if k == key then some v else findEntry rest key

/-- Write of a file: replace it if present, create it otherwise, as
`os.WriteFile` does. -/
def setEntry : List (String × FileEntry) → String → FileEntry → List (String × FileEntry)
  | [], key, v => [(key, v)]
  | (k, w) :: rest, key, v =>
      if k == key then (key, v) :: rest else (k, w) :: setEntry rest key v

/-- Removal of a file, as `os.Remove` does. -/
def removeEntry : List (String × FileEntry) → String → List (String × FileEntry)
  | [], _ => []
  | (k, w) :: rest, key => if k == key then rest else (k, w) :: removeEntry rest key

/-- Embedding of `JSONStore.Get`: `os.ReadFile` (failing when the medium is
down or the file is absent) followed by `json.Unmarshal` (failing on corrupt
bytes). -/
def storeGet (ds : DiskState) (id : String) : Except StoreErr FDoc :=
  if !ds.up then .error .ioError
  else
    match findEntry ds.files (fname id) with
    | none => .error .notExist
    | some (.corrupt _) => .error .parseError
    | some (.good d) => .ok d

/-- Embedding of `JSONStore.Save`: marshal the document and `os.WriteFile`
it (failing when the medium is down). -/
def storeSave (ds : DiskState) (d : FDoc) : Except StoreErr DiskState :=
  if !ds.up then .error .ioError
  else .ok { ds with files := setEntry ds.files (fname d.id) (.good d) }

/-- Embedding of `JSONStore.Delete`: `os.Remove` (failing when the medium is
down or the file is absent). -/
def storeDelete (ds : DiskState) (id : String) : Except StoreErr DiskState :=
  if !ds.up then .error .ioError
  else
    match findEntry ds.files (fname id) with
    | none => .error .notExist
    | some _ => .ok { ds with files := removeEntry ds.files (fname id) }

/-- Embedding of the file-backend `getDocument` handler: every `store.Get`
failure, of any kind, is answered with 404 "Document not found". -/
def fileGetDocument (ds : DiskState) (id : String) : Except ErrResp FDoc :=
  match storeGet ds id with
  | .error _ => .error ⟨404, "Document not found"⟩
  | .ok d => .ok d

/-- Embedding of the file-backend `deleteDocument` handler: every
`store.Delete` failure, of any kind, is answered with 404 "Document not
found". -/
def fileDeleteDocument (ds : DiskState) (id : String) :
    Except ErrResp Unit × DiskState :=
  match storeDelete ds id with
  | .error _ => (.error ⟨404, "Document not found"⟩, ds)
  | .ok ds' => (.ok (), ds')

/-- Decoded `PUT` body of the file backend: `name` decodes to `""` when
absent, `data` (a `json.RawMessage`) has length zero when absent. -/
structure FUpdInput where
  name : String
  data : String

/-- Field application of the file-backend `updateDocument`: name overridden
only when non-empty, data only when of non-zero length, `UpdatedAt` always
refreshed. -/
def applyUpd (d : FDoc) (inp : FUpdInput) (now : Nat) : FDoc :=
  { d with
    name := if inp.name = "" then d.name else inp.name
    data := if inp.data = "" then d.data else inp.data
    updatedAt := now }

/-- Embedding of the file-backend `updateDocument` handler: `store.Get` (404
on any failure), field application, then `store.Save` (500 on failure). -/
def fileUpdateDocument (ds : DiskState) (id : String) (inp : FUpdInput)
    (now : Nat) : Except ErrResp FDoc × DiskState :=
  match storeGet ds id with
  | .error _ => (.error ⟨404, "Document not found"⟩, ds)
  | .ok d =>
      match storeSave ds (applyUpd d inp now) with
      | .error _ => (.error ⟨500, "Failed to update document"⟩, ds)
      | .ok ds' => (.ok (applyUpd d inp now), ds')

/-- One in-flight update call: its decoded body and its `time.Now()`. -/
structure Upd where
  inp : FUpdInput
  now : Nat

/-- Read phase of an update: the `store.Get` holding the store mutex only
for its own duration.  In the executions below the document is always
present and the medium up, so the default is never taken. -/
def rd (ds : DiskState) (id : String) (dflt : FDoc) : FDoc :=
  ((storeGet ds id).toOption).getD dflt

/-- Write phase of an update: the `store.Save` holding the store mutex only
for its own duration.  In the executions below the medium is up, so the
default is never taken. -/
def wr (ds : DiskState) (snap : FDoc) (u : Upd) : DiskState :=
  ((storeSave ds (applyUpd snap u.inp u.now)).toOption).getD ds

/-- The six interleavings of two updates A and B on the same identifier,
each consisting of its read phase followed by its write phase: the mutex is
released between the two phases, so any ordering of the four phases that
keeps each call's read before its write can occur. -/
inductive Sched where
  | aabb
  | abab
  | abba
  | baab
  | baba
  | bbaa
deriving DecidableEq

/-- Initial data directory holding exactly the targeted document. -/
def disk0 (d0 : FDoc) : DiskState := ⟨true, [(fname d0.id, .good d0)]⟩

/-- Execution of two concurrent updates on the document `d0` under a given
interleaving of their read and write phases. -/
def runPair (d0 : FDoc) (uA uB : Upd) : Sched → DiskState
  | .aabb =>
      wr (wr (disk0 d0) (rd (disk0 d0) d0.id d0) uA)
        (rd (wr (disk0 d0) (rd (disk0 d0) d0.id d0) uA) d0.id d0) uB
  | .abab =>
      wr (wr (disk0 d0) (rd (disk0 d0) d0.id d0) uA) (rd (disk0 d0) d0.id d0) uB
  | .abba =>
      wr (wr (disk0 d0) (rd (disk0 d0) d0.id d0) uB) (rd (disk0 d0) d0.id d0) uA
  | .baab =>
      wr (wr (disk0 d0) (rd (disk0 d0) d0.id d0) uA) (rd (disk0 d0) d0.id d0) uB
  | .baba =>
      wr (wr (disk0 d0) (rd (disk0 d0) d0.id d0) uB) (rd (disk0 d0) d0.id d0) uA
  | .bbaa =>
      wr (wr (disk0 d0) (rd (disk0 d0) d0.id d0) uB)
        (rd (wr (disk0 d0) (rd (disk0 d0) d0.id d0) uB) d0.id d0) uA

/-- The well-formed document stored at an id, if any. -/
def docAt (ds : DiskState) (id : String) : Option FDoc :=
  match findEntry ds.files (fname id) with
  | some (.good d) => some d
  | _ => none

end FileStore

namespace MongoAuth

theorem find?_first {α : Type} {p : α → Bool} {l : List α} {d : α}
    (hd : d ∈ l) (hp : p d = true)
    (huniq : ∀ x ∈ l, p x = true → x = d) : l.find? p = some d := by
  induction l with
  | nil => cases hd
  | cons a t ih =>
    by_cases hpa : p a = true
    · rw [List.find?_cons_of_pos _ hpa, huniq a (List.mem_cons_self a t) hpa]
    · rw [List.find?_cons_of_neg _ (fun h => hpa h)]
      have hd' : d ∈ t := by
        rcases List.mem_cons.mp hd with h | h
        · exact absurd (h ▸ hp) hpa
        · exact h
      exact ih hd' (fun x hx hpx => huniq x (List.mem_cons_of_mem a hx) hpx)

theorem matches_false_of_foreign {scope id : String} {d : MDoc}
    (howner : d.id = id → d.userID ≠ scope) (hg : scope ≠ "global") :
    docMatches scope id d = false := by
  by_cases hid : d.id = id
  · simp [docMatches, hid, hg, howner hid]
  · simp [docMatches, hid]

theorem find?_none_of_false {p : MDoc → Bool} {l : List MDoc}
    (h : ∀ d ∈ l, p d = false) : l.find? p = none :=
  List.find?_eq_none.mpr (fun d hd => by simp [h d hd])

/-- C1: a document owned by account A is invisible to every other specific
account B: `get`, `update` and `delete` issued under scope B answer with the
same 404 "Document not found" response (and leave the store unchanged) that
an entirely absent identifier produces; a `get` that does return a document
implies the requester's scope is the owner or the administrative `"global"`
scope, and conversely owner or `"global"` scope do retrieve the document. -/
theorem c1_visibility :
    (∀ (docs : List MDoc) (d : MDoc) (scopeB : String) (inp : UpdInput) (n1 n2 : Nat),
       d ∈ docs →
       (∀ d' ∈ docs, d'.id = d.id → d'.userID = d.userID) →
       scopeB ≠ d.userID → scopeB ≠ "global" →
       getDocument scopeB d.id docs = .error ⟨404, "Document not found"⟩ ∧
       deleteDocument scopeB d.id docs = (.error ⟨404, "Document not found"⟩, docs) ∧
       updateDocument scopeB d.id inp n1 n2 docs =
         (.error ⟨404, "Document not found"⟩, docs)) ∧
    (∀ (docs : List MDoc) (id scope : String) (inp : UpdInput) (n1 n2 : Nat),
       (∀ d ∈ docs, d.id ≠ id) →
       getDocument scope id docs = .error ⟨404, "Document not found"⟩ ∧
       deleteDocument scope id docs = (.error ⟨404, "Document not found"⟩, docs) ∧
       updateDocument scope id inp n1 n2 docs =
         (.error ⟨404, "Document not found"⟩, docs)) ∧
    (∀ (docs : List MDoc) (id scope : String) (d : MDoc),
       getDocument scope id docs = .ok d → scope = "global" ∨ d.userID = scope) ∧
    (∀ (docs : List MDoc) (d : MDoc) (scope : String),
       d ∈ docs →
       (∀ d' ∈ docs, d'.id = d.id → d' = d) →
       (scope = d.userID ∨ scope = "global") →
       getDocument scope d.id docs = .ok d) := by
  refine ⟨?_, ?_, ?_, ?_⟩
  · intro docs d scopeB inp n1 n2 hmem howner hsB hgB
    have hnone : docs.find? (docMatches scopeB d.id) = none := by
      refine find?_none_of_false (fun d' hd' => ?_)
      exact matches_false_of_foreign
        (fun hid => (howner d' hd' hid) ▸ Ne.symm hsB) hgB
    exact ⟨by simp [getDocument, hnone], by simp [deleteDocument, hnone],
      by simp [updateDocument, hnone]⟩
  · intro docs id scope inp n1 n2 habsent
    have hnone : docs.find? (docMatches scope id) = none := by
      refine find?_none_of_false (fun d' hd' => ?_)
      simp [docMatches, habsent d' hd']
    exact ⟨by simp [getDocument, hnone], by simp [deleteDocument, hnone],
      by simp [updateDocument, hnone]⟩
  · intro docs id scope d h
    cases hf : docs.find? (docMatches scope id) with
    | none => simp [getDocument, hf] at h
    | some x =>
      have hx : x = d := by
        simpa [getDocument, hf] using h
      have hm := List.find?_some hf
      rw [hx] at hm
      simp only [docMatches, Bool.and_eq_true, Bool.or_eq_true, beq_iff_eq] at hm
      tauto
  · intro docs d scope hmem huniq hscope
    have hp : docMatches scope d.id d = true := by
      simp only [docMatches, Bool.and_eq_true, Bool.or_eq_true, beq_iff_eq]
      constructor
      · simp
      · rcases hscope with h | h
        · exact Or.inr h.symm
        · exact Or.inl h
    have hfind : docs.find? (docMatches scope d.id) = some d := by
      refine find?_first hmem hp (fun x hx hpx => ?_)
      have : x.id = d.id := by
        simp only [docMatches, Bool.and_eq_true, beq_iff_eq] at hpx
        exact hpx.1
      exact huniq x hx this
    simp [getDocument, hfind]

theorem c1_visibility_witness :
    getDocument "bob" "doc1" [⟨"doc1", "alice", "cfg", some [], 0, 0⟩] =
      .error ⟨404, "Document not found"⟩ ∧
    getDocument "global" "nope" [⟨"doc1", "alice", "cfg", some [], 0, 0⟩] =
      .error ⟨404, "Document not found"⟩ ∧
    getDocument "alice" "doc1" [⟨"doc1", "alice", "cfg", some [], 0, 0⟩] =
      .ok ⟨"doc1", "alice", "cfg", some [], 0, 0⟩ := by
  refine ⟨?_, ?_, ?_⟩
  · exact (c1_visibility.1 _ ⟨"doc1", "alice", "cfg", some [], 0, 0⟩ "bob"
      ⟨"", none⟩ 0 0 (by simp)
      (by intro d' hd' _; simp only [List.mem_singleton] at hd'; subst hd'; rfl)
      (by decide) (by decide)).1
  · exact (c1_visibility.2.1 _ "nope" "global" ⟨"", none⟩ 0 0
      (by intro d' hd'; simp only [List.mem_singleton] at hd'; subst hd'; decide)).1
  · exact c1_visibility.2.2.2 _ ⟨"doc1", "alice", "cfg", some [], 0, 0⟩ "alice"
      (by simp)
      (by intro d' hd' _; simp only [List.mem_singleton] at hd'; exact hd')
      (Or.inl rfl)

theorem listDocuments_eq_filter (scope : String) (docs : List MDoc) :
    listDocuments scope docs =
      docs.filter (fun d => scope == "global" || d.userID == scope) := by
  unfold listDocuments
  by_cases h : (docs.filter (fun d => scope == "global" || d.userID == scope)).isEmpty
  · simp [h, List.isEmpty_iff.mp h]
  · simp [h]

/-- C3: a successful update applies the conditional field overrides and
nothing else, in both backends: when the decoded input carries no `data` the
stored and returned data are unchanged, when it carries no `name` the name is
unchanged, supplied fields do land, the last-modified timestamp is always
refreshed, and id and creation time are untouched. -/
theorem c3_partial_update_frame :
    (∀ (scope id : String) (inp : UpdInput) (now1 now2 : Nat)
       (docs : List MDoc) (d : MDoc),
       docs.find? (docMatches scope id) = some d →
       updateDocument scope id inp now1 now2 docs =
         (.ok (applySet d inp now2),
          replaceFirst (docMatches scope id) (fun old => applySet old inp now1) docs)) ∧
    (∀ (d : MDoc) (inp : UpdInput) (t : Nat),
       (inp.data = none → (applySet d inp t).data = d.data) ∧
       (inp.name = "" → (applySet d inp t).name = d.name) ∧
       (inp.name ≠ "" → (applySet d inp t).name = inp.name) ∧
       (∀ m, inp.data = some m → (applySet d inp t).data = some m) ∧
       (applySet d inp t).updatedAt = t ∧
       (applySet d inp t).id = d.id ∧
       (applySet d inp t).createdAt = d.createdAt) ∧
    (∀ (ds : FileStore.DiskState) (id : String) (inp : FileStore.FUpdInput)
       (now : Nat) (d : FileStore.FDoc),
       FileStore.storeGet ds id = .ok d → ds.up = true →
       FileStore.fileUpdateDocument ds id inp now =
         (.ok (FileStore.applyUpd d inp now),
          ⟨ds.up, FileStore.setEntry ds.files (FileStore.fname d.id)
            (.good (FileStore.applyUpd d inp now))⟩)) ∧
    (∀ (d : FileStore.FDoc) (inp : FileStore.FUpdInput) (t : Nat),
       (inp.data = "" → (FileStore.applyUpd d inp t).data = d.data) ∧
       (inp.name = "" → (FileStore.applyUpd d inp t).name = d.name) ∧
       (inp.data ≠ "" → (FileStore.applyUpd d inp t).data = inp.data) ∧
       (FileStore.applyUpd d inp t).updatedAt = t) := by
  refine ⟨?_, ?_, ?_, ?_⟩
  · intro scope id inp now1 now2 docs d hf
    simp [updateDocument, hf]
  · intro d inp t
    refine ⟨fun h => by simp [applySet, h], fun h => by simp [applySet, h],
      fun h => by simp [applySet, h], fun m h => by simp [applySet, h],
      rfl, rfl, rfl⟩
  · intro ds id inp now d hget hup
    simp [FileStore.fileUpdateDocument, hget, FileStore.storeSave, hup,
      FileStore.applyUpd]
  · intro d inp t
    refine ⟨fun h => by simp [FileStore.applyUpd, h],
      fun h => by simp [FileStore.applyUpd, h],
      fun h => by simp [FileStore.applyUpd, h], rfl⟩

theorem c3_partial_update_frame_witness :
    updateDocument "alice" "doc1" ⟨"newname", none⟩ 5 6
        [⟨"doc1", "alice", "n", some [("x", JVal.jnum 1)], 0, 0⟩] =
      (.ok ⟨"doc1", "alice", "newname", some [("x", JVal.jnum 1)], 0, 6⟩,
       [⟨"doc1", "alice", "newname", some [("x", JVal.jnum 1)], 0, 5⟩]) ∧
    FileStore.fileUpdateDocument ⟨true, [("doc1.json",
        .good ⟨"doc1", "n", "rawdata", 0, 0⟩)]⟩ "doc1" ⟨"", "newdata"⟩ 7 =
      (.ok ⟨"doc1", "n", "newdata", 0, 7⟩,
       ⟨true, [("doc1.json", .good ⟨"doc1", "n", "newdata", 0, 7⟩)]⟩) := by
  constructor
  · have h := c3_partial_update_frame.1 "alice" "doc1" ⟨"newname", none⟩ 5 6
      [⟨"doc1", "alice", "n", some [("x", JVal.jnum 1)], 0, 0⟩]
      ⟨"doc1", "alice", "n", some [("x", JVal.jnum 1)], 0, 0⟩ rfl
    exact h
  · have h := c3_partial_update_frame.2.2.1
      ⟨true, [("doc1.json", .good ⟨"doc1", "n", "rawdata", 0, 0⟩)]⟩
      "doc1" ⟨"", "newdata"⟩ 7 ⟨"doc1", "n", "rawdata", 0, 0⟩ rfl rfl
    exact h

/-- C4: the credential-free public read behaves exactly like an unscoped
`get` projected to the `data` field: no scope enters the lookup, only the
JSON content is returned (never the name, owner or timestamps), a missing
identifier answers 404, and no authorization failure (401) can arise. -/
theorem c4_public_projection :
    (∀ (id : String) (docs : List MDoc), id ≠ "" →
       publicRead id docs = (getDocument "global" id docs).map (fun d => d.data)) ∧
    (∀ (id : String) (docs : List MDoc), id ≠ "" → (∀ d ∈ docs, d.id ≠ id) →
       publicRead id docs = .error ⟨404, "Document not found"⟩) ∧
    (∀ (id : String) (docs : List MDoc) (d : MDoc), id ≠ "" →
       docs.find? (fun x => x.id == id) = some d →
       publicRead id docs = .ok d.data) ∧
    (∀ (id : String) (docs : List MDoc) (e : ErrResp),
       publicRead id docs = .error e →
       e.status ≠ 401 ∧ (e.status = 404 ∨ e.status = 400)) := by
  have hpred : ∀ id : String, docMatches "global" id = (fun d : MDoc => d.id == id) := by
    intro id
    funext d
    simp [docMatches]
  refine ⟨?_, ?_, ?_, ?_⟩
  · intro id docs hid
    cases hf : docs.find? (fun x : MDoc => x.id == id) with
    | none => simp [publicRead, getDocument, hpred, hid, hf, Except.map]
    | some d => simp [publicRead, getDocument, hpred, hid, hf, Except.map]
  · intro id docs hid habsent
    have hf : docs.find? (fun x : MDoc => x.id == id) = none := by
      refine List.find?_eq_none.mpr (fun d hd => ?_)
      simp [habsent d hd]
    simp [publicRead, hid, hf]
  · intro id docs d hid hf
    simp [publicRead, hid, hf]
  · intro id docs e h
    by_cases hid : id = ""
    · simp only [publicRead, hid, if_pos rfl] at h
      cases h
      exact ⟨by decide, Or.inr rfl⟩
    · simp only [publicRead, hid, if_neg hid] at h
      cases hf : docs.find? (fun x : MDoc => x.id == id) with
      | none =>
        rw [hf] at h
        cases h
        exact ⟨by decide, Or.inl rfl⟩
      | some d =>
        rw [hf] at h
        cases h

theorem c4_public_projection_witness :
    publicRead "doc1" [⟨"doc1", "alice", "cfg", some [("x", JVal.jnum 1)], 0, 0⟩] =
      .ok (some [("x", JVal.jnum 1)]) ∧
    publicRead "nope" [⟨"doc1", "alice", "cfg", some [("x", JVal.jnum 1)], 0, 0⟩] =
      .error ⟨404, "Document not found"⟩ := by
  constructor
  · exact c4_public_projection.2.2.1 "doc1"
      [⟨"doc1", "alice", "cfg", some [("x", JVal.jnum 1)], 0, 0⟩]
      ⟨"doc1", "alice", "cfg", some [("x", JVal.jnum 1)], 0, 0⟩ (by decide) rfl
  · exact c4_public_projection.2.1 "nope"
      [⟨"doc1", "alice", "cfg", some [("x", JVal.jnum 1)], 0, 0⟩] (by decide)
      (by intro d hd; simp only [List.mem_singleton] at hd; subst hd; decide)

/-- C5: `list` returns exactly the documents visible to the scope — all of
them for the `"global"` administrative scope — and a scope that can see
nothing receives the empty list, a successful empty sequence rather than an
error or an absent value. -/
theorem c5_list_visibility :
    (∀ (scope : String) (docs : List MDoc) (d : MDoc),
       d ∈ listDocuments scope docs ↔
         d ∈ docs ∧ (scope = "global" ∨ d.userID = scope)) ∧
    (∀ docs : List MDoc, listDocuments "global" docs = docs) ∧
    (∀ (scope : String) (docs : List MDoc), scope ≠ "global" →
       (∀ d ∈ docs, d.userID ≠ scope) → listDocuments scope docs = []) := by
  refine ⟨?_, ?_, ?_⟩
  · intro scope docs d
    rw [listDocuments_eq_filter]
    simp [List.mem_filter]
  · intro docs
    rw [listDocuments_eq_filter]
    simp
  · intro scope docs hg hnone
    rw [listDocuments_eq_filter]
    refine List.filter_eq_nil_iff.mpr (fun d hd => ?_)
    simp [hg, hnone d hd]

theorem c5_list_visibility_witness :
    listDocuments "bob" [⟨"doc1", "alice", "cfg", some [], 0, 0⟩] = [] ∧
    listDocuments "global" [⟨"doc1", "alice", "cfg", some [], 0, 0⟩] =
      [⟨"doc1", "alice", "cfg", some [], 0, 0⟩] ∧
    (⟨"doc1", "alice", "cfg", some [], 0, 0⟩ : MDoc) ∈
      listDocuments "alice" [⟨"doc1", "alice", "cfg", some [], 0, 0⟩] := by
  refine ⟨?_, ?_, ?_⟩
  · exact c5_list_visibility.2.2 "bob" [⟨"doc1", "alice", "cfg", some [], 0, 0⟩]
      (by decide)
      (by intro d hd; simp only [List.mem_singleton] at hd; subst hd; decide)
  · exact c5_list_visibility.2.1 [⟨"doc1", "alice", "cfg", some [], 0, 0⟩]
  · exact (c5_list_visibility.1 "alice" [⟨"doc1", "alice", "cfg", some [], 0, 0⟩]
      ⟨"doc1", "alice", "cfg", some [], 0, 0⟩).mpr ⟨by simp, Or.inr rfl⟩

theorem createDocument_success (scope : String) (inp : CreateInput)
    (newId : String) (now : Nat) (docs : List MDoc) (hname : inp.name ≠ "")
    (habsent : ∀ d ∈ docs, d.id ≠ newId) :
    createDocument scope inp newId now docs =
      (.ok ⟨newId, scope, inp.name, some (inp.data.getD []), now, now⟩,
       docs ++ [⟨newId, scope, inp.name, some (inp.data.getD []), now, now⟩]) := by
  have hany : docs.any (fun d => d.id == newId) = false := by
    rw [List.any_eq_false]
    intro d hd
    simp [habsent d hd]
  cases hd : inp.data with
  | none => simp [createDocument, hname, hany, hd]
  | some m => simp [createDocument, hname, hany, hd]

/-- C7: `create` rejects an empty name with 400 and otherwise persists and
returns a document carrying the supplied name, the requester's scope as
owner, the current time as both timestamps, and the supplied content with a
nil map replaced by the empty object (the stored content is never nil); the
generated identifier keeps the live identifiers pairwise distinct, and a
clash of names with an existing document never makes `create` fail. -/
theorem c7_create_contract :
    (∀ (scope : String) (inp : CreateInput) (newId : String) (now : Nat)
       (docs : List MDoc), inp.name = "" →
       createDocument scope inp newId now docs =
         (.error ⟨400, "Document name is required"⟩, docs)) ∧
    (∀ (scope : String) (inp : CreateInput) (newId : String) (now : Nat)
       (docs : List MDoc), inp.name ≠ "" → (∀ d ∈ docs, d.id ≠ newId) →
       createDocument scope inp newId now docs =
         (.ok ⟨newId, scope, inp.name, some (inp.data.getD []), now, now⟩,
          docs ++ [⟨newId, scope, inp.name, some (inp.data.getD []), now, now⟩])) ∧
    (∀ (scope : String) (inp : CreateInput) (newId : String) (now : Nat)
       (docs : List MDoc), (docs.map MDoc.id).Nodup →
       (((createDocument scope inp newId now docs).2).map MDoc.id).Nodup) ∧
    (∀ (scope : String) (inp : CreateInput) (newId : String) (now : Nat)
       (docs : List MDoc) (d : MDoc), inp.name ≠ "" → (∀ d' ∈ docs, d'.id ≠ newId) →
       d ∈ docs → d.name = inp.name →
       ∃ doc, (createDocument scope inp newId now docs).1 = .ok doc) := by
  refine ⟨?_, ?_, ?_, ?_⟩
  · intro scope inp newId now docs hname
    simp [createDocument, hname]
  · intro scope inp newId now docs hname habsent
    exact createDocument_success scope inp newId now docs hname habsent
  · intro scope inp newId now docs hnodup
    by_cases hname : inp.name = ""
    · simpa [createDocument, hname] using hnodup
    · by_cases hany : docs.any (fun d => d.id == newId)
      · simpa [createDocument, hname, hany] using hnodup
      · have habsent : ∀ d ∈ docs, d.id ≠ newId := by
          intro d hd heq
          exact hany (List.any_eq_true.mpr ⟨d, hd, by simp [heq]⟩)
        rw [createDocument_success scope inp newId now docs hname habsent]
        simp only [List.map_append, List.map_cons, List.map_nil]
        rw [List.nodup_append]
        refine ⟨hnodup, List.nodup_singleton _, ?_⟩
        intro x hx hx'
        simp only [List.mem_singleton] at hx'
        subst hx'
        obtain ⟨d, hd, hdid⟩ := List.mem_map.mp hx
        exact habsent d hd hdid
  · intro scope inp newId now docs d hname habsent hmem hcoll
    rw [createDocument_success scope inp newId now docs hname habsent]
    exact ⟨_, rfl⟩

theorem c7_create_contract_witness :
    createDocument "alice" ⟨"", none⟩ "id1" 3 [] =
      (.error ⟨400, "Document name is required"⟩, []) ∧
    createDocument "alice" ⟨"cfg", none⟩ "id1" 3 [] =
      (.ok ⟨"id1", "alice", "cfg", some [], 3, 3⟩,
       [⟨"id1", "alice", "cfg", some [], 3, 3⟩]) ∧
    (∃ doc, (createDocument "alice" ⟨"cfg", none⟩ "id2" 4
       [⟨"id1", "alice", "cfg", some [], 3, 3⟩]).1 = .ok doc) := by
  refine ⟨?_, ?_, ?_⟩
  · exact c7_create_contract.1 "alice" ⟨"", none⟩ "id1" 3 [] rfl
  · exact c7_create_contract.2.1 "alice" ⟨"cfg", none⟩ "id1" 3 []
      (by decide) (by intro d hd; cases hd)
  · exact c7_create_contract.2.2.2 "alice" ⟨"cfg", none⟩ "id2" 4
      [⟨"id1", "alice", "cfg", some [], 3, 3⟩] ⟨"id1", "alice", "cfg", some [], 3, 3⟩
      (by decide)
      (by intro d hd; simp only [List.mem_singleton] at hd; subst hd; decide)
      (by simp) rfl

theorem register_success (accounts : List User)
    (email pw hash newId newKey : String) (now : Nat)
    (he : email ≠ "") (hp : pw ≠ "") (hlen : ¬ pw.utf8ByteSize < 6)
    (hdup : ∀ u ∈ accounts, u.email ≠ lowerStr email)
    (hfresh : ∀ u ∈ accounts, u.id ≠ newId ∧ u.apiKey ≠ newKey) :
    register accounts email pw hash newId newKey now =
      (.ok ⟨newId, lowerStr email, newKey⟩,
       accounts ++ [⟨newId, lowerStr email, hash, newKey, now⟩]) := by
  have hf : accounts.find? (fun u => u.email == lowerStr email) = none := by
    refine List.find?_eq_none.mpr (fun u hu => ?_)
    simp [hdup u hu]
  have hany : accounts.any (fun u => u.id == newId || u.apiKey == newKey) = false := by
    rw [List.any_eq_false]
    intro u hu
    simp [(hfresh u hu).1, (hfresh u hu).2]
  simp [register, he, hp, hlen, hf, hany]

/-- C8: registration case-folds the email before both the duplicate lookup
and storage, answers 409 on a duplicate leaving the registry unchanged,
answers 400 on a password below six bytes, and on success stores a fresh
account whose issued api key keeps the live keys pairwise distinct while the
response carries only id, normalized email and api key — the response value
is independent of the password and of its hash. -/
theorem c8_register_contract :
    (∀ (accounts : List User) (email pw hash newId newKey : String) (now : Nat),
       email ≠ "" → pw ≠ "" → pw.utf8ByteSize < 6 →
       register accounts email pw hash newId newKey now =
         (.error ⟨400, "Password must be at least 6 characters"⟩, accounts)) ∧
    (∀ (accounts : List User) (email pw hash newId newKey : String) (now : Nat),
       email ≠ "" → pw ≠ "" → ¬ pw.utf8ByteSize < 6 →
       (∃ u ∈ accounts, u.email = lowerStr email) →
       register accounts email pw hash newId newKey now =
         (.error ⟨409, "Email already registered"⟩, accounts)) ∧
    (∀ (accounts : List User) (email pw hash newId newKey : String) (now : Nat),
       email ≠ "" → pw ≠ "" → ¬ pw.utf8ByteSize < 6 →
       (∀ u ∈ accounts, u.email ≠ lowerStr email) →
       (∀ u ∈ accounts, u.id ≠ newId ∧ u.apiKey ≠ newKey) →
       register accounts email pw hash newId newKey now =
         (.ok ⟨newId, lowerStr email, newKey⟩,
          accounts ++ [⟨newId, lowerStr email, hash, newKey, now⟩]) ∧
       (((accounts ++ [(⟨newId, lowerStr email, hash, newKey, now⟩ : User)]).map
           User.apiKey).Nodup ↔ (accounts.map User.apiKey).Nodup)) ∧
    (∀ (accounts : List User) (email pw1 pw2 hash1 hash2 newId newKey : String)
       (now : Nat),
       email ≠ "" → pw1 ≠ "" → pw2 ≠ "" →
       ¬ pw1.utf8ByteSize < 6 → ¬ pw2.utf8ByteSize < 6 →
       (register accounts email pw1 hash1 newId newKey now).1 =
         (register accounts email pw2 hash2 newId newKey now).1) := by
  refine ⟨?_, ?_, ?_, ?_⟩
  · intro accounts email pw hash newId newKey now he hp hlen
    simp [register, he, hp, hlen]
  · intro accounts email pw hash newId newKey now he hp hlen hdup
    have hf : (accounts.find? (fun u => u.email == lowerStr email)).isSome := by
      rw [List.find?_isSome]
      obtain ⟨u, hu, hue⟩ := hdup
      exact ⟨u, hu, by simp [hue]⟩
    obtain ⟨u, hu⟩ := Option.isSome_iff_exists.mp hf
    simp [register, he, hp, hlen, hu]
  · intro accounts email pw hash newId newKey now he hp hlen hdup hfresh
    refine ⟨register_success accounts email pw hash newId newKey now
      he hp hlen hdup hfresh, ?_⟩
    simp only [List.map_append, List.map_cons, List.map_nil]
    rw [List.nodup_append]
    constructor
    · intro h
      exact h.1
    · intro h
      refine ⟨h, List.nodup_singleton _, ?_⟩
      intro x hx hx'
      simp only [List.mem_singleton] at hx'
      subst hx'
      obtain ⟨u, hu, huk⟩ := List.mem_map.mp hx
      exact (hfresh u hu).2 huk
  · intro accounts email pw1 pw2 hash1 hash2 newId newKey now he hp1 hp2 hl1 hl2
    cases hf : accounts.find? (fun u => u.email == lowerStr email) with
    | none =>
      by_cases hany : accounts.any (fun u => u.id == newId || u.apiKey == newKey)
      · simp [register, he, hp1, hp2, hl1, hl2, hf, hany]
      · simp [register, he, hp1, hp2, hl1, hl2, hf, hany]
    | some u => simp [register, he, hp1, hp2, hl1, hl2, hf]

theorem c8_register_contract_witness :
    register [] "A@X.com" "secret1" "h1" "u1" "k1" 0 =
      (.ok ⟨"u1", "a@x.com", "k1"⟩, [⟨"u1", "a@x.com", "h1", "k1", 0⟩]) ∧
    register [⟨"u1", "a@x.com", "h1", "k1", 0⟩] "a@X.COM" "secret2" "h2" "u2" "k2" 1 =
      (.error ⟨409, "Email already registered"⟩, [⟨"u1", "a@x.com", "h1", "k1", 0⟩]) ∧
    register [] "a@x.com" "short" "h1" "u1" "k1" 0 =
      (.error ⟨400, "Password must be at least 6 characters"⟩, []) ∧
    (register [] "a@x.com" "secret1" "h1" "u1" "k1" 0).1 =
      (register [] "a@x.com" "secret2" "h2" "u1" "k1" 0).1 := by
  refine ⟨?_, ?_, ?_, ?_⟩
  · have h := (c8_register_contract.2.2.1 [] "A@X.com" "secret1" "h1" "u1" "k1" 0
      (by decide) (by decide) (by decide)
      (by intro u hu; cases hu) (by intro u hu; cases hu)).1
    simpa using h
  · have h := c8_register_contract.2.1 [⟨"u1", "a@x.com", "h1", "k1", 0⟩]
      "a@X.COM" "secret2" "h2" "u2" "k2" 1 (by decide) (by decide) (by decide)
      ⟨⟨"u1", "a@x.com", "h1", "k1", 0⟩, by simp, by decide⟩
    simpa using h
  · exact c8_register_contract.1 [] "a@x.com" "short" "h1" "u1" "k1" 0
      (by decide) (by decide) (by decide)
  · exact c8_register_contract.2.2.2 [] "a@x.com" "secret1" "secret2" "h1" "h2"
      "u1" "k1" 0 (by decide) (by decide) (by decide) (by decide) (by decide)

/-- C9: a login against an unknown (case-folded) email and a login whose
bcrypt comparison fails produce the very same response value — status 401
and message "Invalid email or password" — so the two failure causes are
indistinguishable to the caller, while a successful login returns the
account's id, email and issued api key. -/
theorem c9_login_indistinguishable :
    (∀ (accounts : List User) (email pw : String) (verify : String → String → Bool),
       email ≠ "" → pw ≠ "" →
       accounts.find? (fun u => u.email == lowerStr email) = none →
       login accounts email pw verify = .error ⟨401, "Invalid email or password"⟩) ∧
    (∀ (accounts : List User) (email pw : String) (verify : String → String → Bool)
       (u : User),
       email ≠ "" → pw ≠ "" →
       accounts.find? (fun u => u.email == lowerStr email) = some u →
       verify u.password pw = false →
       login accounts email pw verify = .error ⟨401, "Invalid email or password"⟩) ∧
    (∀ (a1 : List User) (e1 p1 : String) (v1 : String → String → Bool)
       (a2 : List User) (e2 p2 : String) (v2 : String → String → Bool),
       e1 ≠ "" → p1 ≠ "" → e2 ≠ "" → p2 ≠ "" →
       (a1.find? (fun u => u.email == lowerStr e1) = none ∨
        ∃ u, a1.find? (fun u => u.email == lowerStr e1) = some u ∧
          v1 u.password p1 = false) →
       (a2.find? (fun u => u.email == lowerStr e2) = none ∨
        ∃ u, a2.find? (fun u => u.email == lowerStr e2) = some u ∧
          v2 u.password p2 = false) →
       login a1 e1 p1 v1 = login a2 e2 p2 v2) ∧
    (∀ (accounts : List User) (email pw : String) (verify : String → String → Bool)
       (u : User),
       email ≠ "" → pw ≠ "" →
       accounts.find? (fun u => u.email == lowerStr email) = some u →
       verify u.password pw = true →
       login accounts email pw verify = .ok ⟨u.id, u.email, u.apiKey⟩) := by
  have habsent : ∀ (accounts : List User) (email pw : String)
      (verify : String → String → Bool), email ≠ "" → pw ≠ "" →
      accounts.find? (fun u => u.email == lowerStr email) = none →
      login accounts email pw verify = .error ⟨401, "Invalid email or password"⟩ := by
    intro accounts email pw verify he hp hf
    simp [login, he, hp, hf]
  have hbadpw : ∀ (accounts : List User) (email pw : String)
      (verify : String → String → Bool) (u : User), email ≠ "" → pw ≠ "" →
      accounts.find? (fun u => u.email == lowerStr email) = some u →
      verify u.password pw = false →
      login accounts email pw verify = .error ⟨401, "Invalid email or password"⟩ := by
    intro accounts email pw verify u he hp hf hv
    simp [login, he, hp, hf, hv]
  refine ⟨habsent, hbadpw, ?_, ?_⟩
  · intro a1 e1 p1 v1 a2 e2 p2 v2 he1 hp1 he2 hp2 hfail1 hfail2
    have h1 : login a1 e1 p1 v1 = .error ⟨401, "Invalid email or password"⟩ := by
      rcases hfail1 with hf | ⟨u, hf, hv⟩
      · exact habsent a1 e1 p1 v1 he1 hp1 hf
      · exact hbadpw a1 e1 p1 v1 u he1 hp1 hf hv
    have h2 : login a2 e2 p2 v2 = .error ⟨401, "Invalid email or password"⟩ := by
      rcases hfail2 with hf | ⟨u, hf, hv⟩
      · exact habsent a2 e2 p2 v2 he2 hp2 hf
      · exact hbadpw a2 e2 p2 v2 u he2 hp2 hf hv
    rw [h1, h2]
  · intro accounts email pw verify u he hp hf hv
    simp [login, he, hp, hf, hv]

theorem c9_login_indistinguishable_witness :
    login [⟨"u1", "a@x.com", "h1", "k1", 0⟩] "b@x.com" "secret1" (fun _ _ => false) =
      login [⟨"u1", "a@x.com", "h1", "k1", 0⟩] "a@x.com" "wrongpw" (fun _ _ => false) ∧
    login [⟨"u1", "a@x.com", "h1", "k1", 0⟩] "A@x.com" "secret1" (fun _ _ => true) =
      .ok ⟨"u1", "a@x.com", "k1"⟩ := by
  constructor
  · exact c9_login_indistinguishable.2.2.1
      [⟨"u1", "a@x.com", "h1", "k1", 0⟩] "b@x.com" "secret1" (fun _ _ => false)
      [⟨"u1", "a@x.com", "h1", "k1", 0⟩] "a@x.com" "wrongpw" (fun _ _ => false)
      (by decide) (by decide) (by decide) (by decide)
      (Or.inl (by decide))
      (Or.inr ⟨⟨"u1", "a@x.com", "h1", "k1", 0⟩, by decide, rfl⟩)
  · exact c9_login_indistinguishable.2.2.2
      [⟨"u1", "a@x.com", "h1", "k1", 0⟩] "A@x.com" "secret1" (fun _ _ => true)
      ⟨"u1", "a@x.com", "h1", "k1", 0⟩ (by decide) (by decide) (by decide) rfl

theorem mem_eraseFirst {p : MDoc → Bool} {l : List MDoc} {d : MDoc}
    (h : d ∈ eraseFirst p l) : d ∈ l := by
  induction l with
  | nil => simp [eraseFirst] at h
  | cons a t ih =>
    by_cases hp : p a
    · simp only [eraseFirst, hp, if_pos] at h
      exact List.mem_cons_of_mem a h
    · simp only [eraseFirst, hp, if_neg, Bool.false_eq_true, not_false_iff] at h
      rcases List.mem_cons.mp h with h | h
      · exact h ▸ List.mem_cons_self a t
      · exact List.mem_cons_of_mem a (ih h)

theorem mem_replaceFirst {p : MDoc → Bool} {f : MDoc → MDoc} {l : List MDoc}
    {d : MDoc} (h : d ∈ replaceFirst p f l) : d ∈ l ∨ ∃ x ∈ l, d = f x := by
  induction l with
  | nil => simp [replaceFirst] at h
  | cons a t ih =>
    by_cases hp : p a
    · simp only [replaceFirst, hp, if_pos] at h
      rcases List.mem_cons.mp h with h | h
      · exact Or.inr ⟨a, List.mem_cons_self a t, h⟩
      · exact Or.inl (List.mem_cons_of_mem a h)
    · simp only [replaceFirst, hp, if_neg, Bool.false_eq_true, not_false_iff] at h
      rcases List.mem_cons.mp h with h | h
      · exact Or.inl (h ▸ List.mem_cons_self a t)
      · rcases ih h with h | ⟨x, hx, hfx⟩
        · exact Or.inl (List.mem_cons_of_mem a h)
        · exact Or.inr ⟨x, List.mem_cons_of_mem a hx, hfx⟩

theorem goodDoc_applySet {d : MDoc} (hd : GoodDoc d) (inp : UpdInput) (t : Nat) :
    GoodDoc (applySet d inp t) := by
  obtain ⟨hn, hdata⟩ := hd
  constructor
  · by_cases h : inp.name = ""
    · simpa [applySet, h] using hn
    · simp [applySet, h]
  · cases h : inp.data with
    | none => simpa [applySet, h] using hdata
    | some m => simp [applySet, h]

theorem inv_stepOp (docs : List MDoc) (op : Op) (hinv : Inv docs) :
    Inv (stepOp docs op) := by
  cases op with
  | create scope inp newId now =>
    simp only [stepOp, createDocument]
    by_cases hname : inp.name = ""
    · simpa [hname] using hinv
    · by_cases hany : docs.any (fun d => d.id == newId)
      · simpa [hname, hany] using hinv
      · simp only [hname, hany, if_neg, if_pos, Bool.false_eq_true, not_false_iff]
        intro d hd
        rcases List.mem_append.mp hd with hd | hd
        · exact hinv d hd
        · simp only [List.mem_singleton] at hd
          subst hd
          refine ⟨hname, ?_⟩
          cases inp.data <;> simp
  | update scope id inp n1 n2 =>
    simp only [stepOp, updateDocument]
    cases hf : docs.find? (docMatches scope id) with
    | none => simpa using hinv
    | some d =>
      simp only []
      intro d' hd'
      rcases mem_replaceFirst hd' with h | ⟨x, hx, hfx⟩
      · exact hinv d' h
      · exact hfx ▸ goodDoc_applySet (hinv x hx) inp n1
  | del scope id =>
    simp only [stepOp, deleteDocument]
    cases hf : docs.find? (docMatches scope id) with
    | none => simpa using hinv
    | some d =>
      simp only []
      intro d' hd'
      exact hinv d' (mem_eraseFirst hd')

theorem inv_runOps (ops : List Op) (docs : List MDoc) (hinv : Inv docs) :
    Inv (runOps docs ops) := by
  induction ops generalizing docs with
  | nil => simpa [runOps] using hinv
  | cons op rest ih => exact ih (stepOp docs op) (inv_stepOp docs op hinv)

/-- C10: the invariant that every live document has a non-empty name and a
non-nil data map is preserved by every create, update and delete — create
rejects empty names and replaces a nil map with the empty object, update
treats an empty input name and a nil input map as absent — so no sequence of
operations starting from the empty store can ever produce a document with an
empty name or nil content. -/
theorem c10_live_doc_invariant :
    (∀ (docs : List MDoc) (op : Op), Inv docs → Inv (stepOp docs op)) ∧
    (∀ ops : List Op, Inv (runOps [] ops)) :=
  ⟨inv_stepOp, fun ops => inv_runOps ops [] (fun _ hd => absurd hd (List.not_mem_nil _))⟩

theorem c10_live_doc_invariant_witness :
    Inv (runOps []
      [.create "alice" ⟨"cfg", none⟩ "id1" 1,
       .update "alice" "id1" ⟨"", some [("x", JVal.jnum 1)]⟩ 2 2,
       .update "alice" "id1" ⟨"newname", none⟩ 3 3,
       .del "alice" "id1"]) ∧
    Inv (stepOp [⟨"id1", "alice", "cfg", some [], 1, 1⟩]
      (.update "alice" "id1" ⟨"", none⟩ 2 2)) := by
  constructor
  · exact c10_live_doc_invariant.2
      [.create "alice" ⟨"cfg", none⟩ "id1" 1,
       .update "alice" "id1" ⟨"", some [("x", JVal.jnum 1)]⟩ 2 2,
       .update "alice" "id1" ⟨"newname", none⟩ 3 3,
       .del "alice" "id1"]
  · refine c10_live_doc_invariant.1 [⟨"id1", "alice", "cfg", some [], 1, 1⟩]
      (.update "alice" "id1" ⟨"", none⟩ 2 2) ?_
    intro d hd
    simp only [List.mem_singleton] at hd
    subst hd
    exact ⟨by decide, by simp⟩

end MongoAuth

namespace FileStore

theorem rd_oneDoc (id : String) (d dflt : FDoc) :
    rd ⟨true, [(fname id, .good d)]⟩ id dflt = d := by
  simp [rd, storeGet, findEntry, Except.toOption]

theorem wr_oneDoc (id : String) (stored snap : FDoc) (u : Upd)
    (hid : snap.id = id) :
    wr ⟨true, [(fname id, .good stored)]⟩ snap u =
      ⟨true, [(fname id, .good (applyUpd snap u.inp u.now))]⟩ := by
  have happ : (applyUpd snap u.inp u.now).id = id := hid
  simp [wr, storeSave, setEntry, happ, Except.toOption]

theorem docAt_oneDoc (id : String) (d : FDoc) :
    docAt ⟨true, [(fname id, .good d)]⟩ id = some d := by
  simp [docAt, findEntry]

/-- C2 counterexample: two updates on the same identifier, one renaming the
document and one replacing its data, executed in the interleaving where both
reads precede both writes.  Both calls complete, yet the final state differs
from the outcome of either serial order — the successful rename is lost — so
the read-modify-write cycle of `update` is not protected by any lock scoped
to the identifier. -/
theorem c2_interleaving_counterexample :
    docAt (runPair ⟨"doc1", "orig", "d0", 0, 0⟩ ⟨⟨"nA", ""⟩, 5⟩
        ⟨⟨"", "dB"⟩, 6⟩ .abab) "doc1" = some ⟨"doc1", "orig", "dB", 0, 6⟩ ∧
    docAt (runPair ⟨"doc1", "orig", "d0", 0, 0⟩ ⟨⟨"nA", ""⟩, 5⟩
        ⟨⟨"", "dB"⟩, 6⟩ .aabb) "doc1" = some ⟨"doc1", "nA", "dB", 0, 6⟩ ∧
    docAt (runPair ⟨"doc1", "orig", "d0", 0, 0⟩ ⟨⟨"nA", ""⟩, 5⟩
        ⟨⟨"", "dB"⟩, 6⟩ .bbaa) "doc1" = some ⟨"doc1", "nA", "dB", 0, 5⟩ ∧
    docAt (runPair ⟨"doc1", "orig", "d0", 0, 0⟩ ⟨⟨"nA", ""⟩, 5⟩
        ⟨⟨"", "dB"⟩, 6⟩ .abab) "doc1" ≠
      docAt (runPair ⟨"doc1", "orig", "d0", 0, 0⟩ ⟨⟨"nA", ""⟩, 5⟩
        ⟨⟨"", "dB"⟩, 6⟩ .aabb) "doc1" ∧
    docAt (runPair ⟨"doc1", "orig", "d0", 0, 0⟩ ⟨⟨"nA", ""⟩, 5⟩
        ⟨⟨"", "dB"⟩, 6⟩ .abab) "doc1" ≠
      docAt (runPair ⟨"doc1", "orig", "d0", 0, 0⟩ ⟨⟨"nA", ""⟩, 5⟩
        ⟨⟨"", "dB"⟩, 6⟩ .bbaa) "doc1" := by
  refine ⟨rfl, rfl, rfl, by decide, by decide⟩

/-- C2 (amended): the store-wide mutex makes each `Get` and each `Save`
individually atomic but is released between the two phases of `update`, so
under any interleaving of two updates on the same identifier the final state
is the serial composition in one of the two orders, or a single call's full
effect on the original document with the other successful update lost — a
stale-read last-writer-wins outcome, never a torn document. -/
theorem c2_last_writer_wins (d0 : FDoc) (uA uB : Upd) (s : Sched) :
    docAt (runPair d0 uA uB s) d0.id =
        some (applyUpd (applyUpd d0 uA.inp uA.now) uB.inp uB.now) ∨
    docAt (runPair d0 uA uB s) d0.id =
        some (applyUpd (applyUpd d0 uB.inp uB.now) uA.inp uA.now) ∨
    docAt (runPair d0 uA uB s) d0.id = some (applyUpd d0 uA.inp uA.now) ∨
    docAt (runPair d0 uA uB s) d0.id = some (applyUpd d0 uB.inp uB.now) := by
  cases s with
  | aabb =>
    simp only [runPair, disk0]
    rw [rd_oneDoc d0.id d0 d0, wr_oneDoc d0.id d0 d0 uA rfl,
      rd_oneDoc d0.id (applyUpd d0 uA.inp uA.now) d0,
      wr_oneDoc d0.id (applyUpd d0 uA.inp uA.now) (applyUpd d0 uA.inp uA.now) uB rfl,
      docAt_oneDoc]
    exact Or.inl rfl
  | abab =>
    simp only [runPair, disk0]
    rw [rd_oneDoc d0.id d0 d0, wr_oneDoc d0.id d0 d0 uA rfl,
      wr_oneDoc d0.id (applyUpd d0 uA.inp uA.now) d0 uB rfl, docAt_oneDoc]
    exact Or.inr (Or.inr (Or.inr rfl))
  | abba =>
    simp only [runPair, disk0]
    rw [rd_oneDoc d0.id d0 d0, wr_oneDoc d0.id d0 d0 uB rfl,
      wr_oneDoc d0.id (applyUpd d0 uB.inp uB.now) d0 uA rfl, docAt_oneDoc]
    exact Or.inr (Or.inr (Or.inl rfl))
  | baab =>
    simp only [runPair, disk0]
    rw [rd_oneDoc d0.id d0 d0, wr_oneDoc d0.id d0 d0 uA rfl,
      wr_oneDoc d0.id (applyUpd d0 uA.inp uA.now) d0 uB rfl, docAt_oneDoc]
    exact Or.inr (Or.inr (Or.inr rfl))
  | baba =>
    simp only [runPair, disk0]
    rw [rd_oneDoc d0.id d0 d0, wr_oneDoc d0.id d0 d0 uB rfl,
      wr_oneDoc d0.id (applyUpd d0 uB.inp uB.now) d0 uA rfl, docAt_oneDoc]
    exact Or.inr (Or.inr (Or.inl rfl))
  | bbaa =>
    simp only [runPair, disk0]
    rw [rd_oneDoc d0.id d0 d0, wr_oneDoc d0.id d0 d0 uB rfl,
      rd_oneDoc d0.id (applyUpd d0 uB.inp uB.now) d0,
      wr_oneDoc d0.id (applyUpd d0 uB.inp uB.now) (applyUpd d0 uB.inp uB.now) uA rfl,
      docAt_oneDoc]
    exact Or.inr (Or.inl rfl)

/-- C6 counterexample: a corrupt record and an unreachable storage medium are
both answered by the read path with the same 404 "Document not found"
response that a genuinely absent identifier produces — not with a 500 — so
corruption and unavailability are conflated with `NotFound`. -/
theorem c6_corrupt_read_counterexample :
    fileGetDocument ⟨true, [("doc1.json", .corrupt "not json")]⟩ "doc1" =
      .error ⟨404, "Document not found"⟩ ∧
    fileGetDocument ⟨false, [("doc1.json", .good ⟨"doc1", "n", "d", 0, 0⟩)]⟩
      "doc1" = .error ⟨404, "Document not found"⟩ ∧
    fileGetDocument ⟨true, []⟩ "doc1" = .error ⟨404, "Document not found"⟩ ∧
    fileDeleteDocument ⟨false, [("doc1.json", .good ⟨"doc1", "n", "d", 0, 0⟩)]⟩
      "doc1" = (.error ⟨404, "Document not found"⟩,
        ⟨false, [("doc1.json", .good ⟨"doc1", "n", "d", 0, 0⟩)]⟩) ∧
    (⟨404, "Document not found"⟩ : ErrResp).status ≠ 500 :=
  ⟨rfl, rfl, rfl, rfl, by decide⟩

/-- C6 (amended): every failure of the read and delete paths — unreachable
medium, corrupt record, or plain absence — is surfaced as the single 404
"Document not found" response; the get and delete handlers can emit no other
error and in particular never a 500, so corruption and unavailability are
indistinguishable from absence for these operations. -/
theorem c6_read_errors_not_found :
    (∀ (ds : DiskState) (id : String), ds.up = false →
       fileGetDocument ds id = .error ⟨404, "Document not found"⟩ ∧
       fileDeleteDocument ds id = (.error ⟨404, "Document not found"⟩, ds)) ∧
    (∀ (ds : DiskState) (id : String) (raw : String),
       findEntry ds.files (fname id) = some (.corrupt raw) →
       fileGetDocument ds id = .error ⟨404, "Document not found"⟩) ∧
    (∀ (ds : DiskState) (id : String),
       findEntry ds.files (fname id) = none →
       fileGetDocument ds id = .error ⟨404, "Document not found"⟩ ∧
       fileDeleteDocument ds id = (.error ⟨404, "Document not found"⟩, ds)) ∧
    (∀ (ds : DiskState) (id : String) (e : ErrResp),
       fileGetDocument ds id = .error e → e = ⟨404, "Document not found"⟩) ∧
    (∀ (ds : DiskState) (id : String) (e : ErrResp) (ds' : DiskState),
       fileDeleteDocument ds id = (.error e, ds') →
       e = ⟨404, "Document not found"⟩) := by
  refine ⟨?_, ?_, ?_, ?_, ?_⟩
  · intro ds id hdown
    exact ⟨by simp [fileGetDocument, storeGet, hdown],
      by simp [fileDeleteDocument, storeDelete, hdown]⟩
  · intro ds id raw hcorrupt
    by_cases hup : ds.up
    · simp [fileGetDocument, storeGet, hup, hcorrupt]
    · simp [fileGetDocument, storeGet, hup]
  · intro ds id hnone
    by_cases hup : ds.up
    · exact ⟨by simp [fileGetDocument, storeGet, hup, hnone],
        by simp [fileDeleteDocument, storeDelete, hup, hnone]⟩
    · exact ⟨by simp [fileGetDocument, storeGet, hup],
        by simp [fileDeleteDocument, storeDelete, hup]⟩
  · intro ds id e h
    cases hg : storeGet ds id with
    | error err =>
      simp only [fileGetDocument, hg] at h
      cases h
      rfl
    | ok d =>
      simp [fileGetDocument, hg] at h
  · intro ds id e ds' h
    cases hg : storeDelete ds id with
    | error err =>
      simp only [fileDeleteDocument, hg] at h
      cases h
      rfl
    | ok d =>
      simp [fileDeleteDocument, hg] at h

theorem c6_read_errors_not_found_witness :
    fileGetDocument ⟨true, [("a.json", .corrupt "xx"), ("doc2.json",
        .good ⟨"doc2", "n", "d", 1, 1⟩)]⟩ "a" =
      .error ⟨404, "Document not found"⟩ ∧
    fileGetDocument ⟨false, []⟩ "a" = .error ⟨404, "Document not found"⟩ := by
  constructor
  · exact c6_read_errors_not_found.2.1 ⟨true, [("a.json", .corrupt "xx"),
      ("doc2.json", .good ⟨"doc2", "n", "d", 1, 1⟩)]⟩ "a" "xx" rfl
  · exact (c6_read_errors_not_found.1 ⟨false, []⟩ "a" rfl).1

end FileStore

end JsonApi
